import Mathlib

/-!
Verification of the user-similarity matching subsystem of
GraduateSupportApp (backend/user_connectivity).

Python strings are modelled as lists of Unicode code points (`PyStr`).
Python's `json.dumps` / `json.loads` (as used by `_prepare_metadata` /
`_parse_metadata` in vector_db.py) are embedded faithfully, including
`ensure_ascii` escaping and surrogate-pair handling, following CPython's
json module.  The ChromaDB collection is modelled as a list of records
with the library's documented semantics; the embedding model is an
abstract deterministic function.
-/

/-- A Python string: a finite sequence of Unicode code points.
Python strings may also hold lone surrogates, so elements are plain
naturals; `validStr` singles out the well-formed (scalar-value) strings. -/
abbrev PyStr := List Nat

/-- Convert a Lean string literal to its code-point list (used only to
write concrete Python strings in statements and witnesses). -/
def pyOfString (s : String) : PyStr := s.data.map Char.toNat

/-- A well-formed Unicode string: every code point is a Unicode scalar
value (below 0x110000 and not a surrogate). -/
def validStr (s : PyStr) : Bool :=
  s.all (fun c => decide (c < 0xD800 ∨ (0xE000 ≤ c ∧ c < 0x110000)))

/-- Code points considered whitespace by Python's `str.strip()`
(CPython's Unicode whitespace set). -/
def pyIsSpace (c : Nat) : Bool :=
  (9 ≤ c && c ≤ 13) || (28 ≤ c && c ≤ 31) || c == 32 || c == 133 || c == 160 ||
  c == 0x1680 || (0x2000 ≤ c && c ≤ 0x200A) || c == 0x2028 || c == 0x2029 ||
  c == 0x202F || c == 0x205F || c == 0x3000

/-- Python `str.strip()`: remove leading and trailing whitespace. -/
def pyStrip (s : PyStr) : PyStr :=
  ((s.dropWhile pyIsSpace).reverse.dropWhile pyIsSpace).reverse

/-- Python `sep.join(parts)`. -/
def joinSep (sep : PyStr) (parts : List PyStr) : PyStr :=
  match parts with
  | [] => []
  | p :: ps => p ++ (ps.map (fun q => sep ++ q)).flatten

/-- Lower-case hexadecimal digit character for a value below 16
(CPython formats `\uXXXX` escapes with `%04x`). -/
def hexDig (d : Nat) : Nat := if d < 10 then 48 + d else 87 + d

/-- The four hexadecimal digit characters of a code unit `n < 0x10000`. -/
def hex4 (n : Nat) : List Nat :=
  [hexDig (n / 4096 % 16), hexDig (n / 256 % 16), hexDig (n / 16 % 16), hexDig (n % 16)]

/-- The six-character escape `\uXXXX` for a code unit `n < 0x10000`. -/
def uEsc (n : Nat) : List Nat := 92 :: 117 :: hex4 n

/-- Escape of one character under `json.dumps` with its default
`ensure_ascii=True` (CPython `py_encode_basestring_ascii`): printable
ASCII other than quote and backslash is kept, the short escapes are used
for the usual controls, everything else becomes `\uXXXX`, with a
surrogate pair for astral code points. -/
def escChar (c : Nat) : List Nat :=
  if c = 34 then [92, 34]
  else if c = 92 then [92, 92]
  else if c = 8 then [92, 98]
  else if c = 9 then [92, 116]
  else if c = 10 then [92, 110]
  else if c = 12 then [92, 102]
  else if c = 13 then [92, 114]
  else if 32 ≤ c ∧ c ≤ 126 then [c]
  else if c < 0x10000 then uEsc c
  else uEsc (0xD800 + (c - 0x10000) / 0x400) ++ uEsc (0xDC00 + (c - 0x10000) % 0x400)

/-- `json.dumps` of a single Python string. -/
def dumpStr (s : PyStr) : PyStr := 34 :: (s.map escChar).flatten ++ [34]

/-- `json.dumps` of a list of strings with the default separator `", "`,
as called by `_prepare_metadata` on `goals` and `favorites`. -/
def dumps (l : List PyStr) : PyStr :=
  91 :: joinSep [44, 32] (l.map dumpStr) ++ [93]

/-- A JSON value as produced by `json.loads`.  Numeric literals keep
their source token (no claim interprets their value). -/
inductive PyVal : Type where
  | str (s : PyStr)
  | arr (l : List PyVal)
  | obj (members : List (PyStr × PyVal))
  | num (tok : PyStr)
  | boolV (b : Bool)
  | nullV
deriving Repr

/-- JSON inter-token whitespace (`json` module: space, tab, LF, CR). -/
def jsonWs (c : Nat) : Bool := c == 32 || c == 9 || c == 10 || c == 13

def skipWs (s : List Nat) : List Nat := s.dropWhile jsonWs

/-- Value of a hexadecimal digit character. -/
def hexVal (c : Nat) : Option Nat :=
  if 48 ≤ c ∧ c ≤ 57 then some (c - 48)
  else if 97 ≤ c ∧ c ≤ 102 then some (c - 87)
  else if 65 ≤ c ∧ c ≤ 70 then some (c - 55)
  else none

/-- Read four hexadecimal digits (the `XXXX` of a `\uXXXX` escape). -/
def parseHex4 : List Nat → Option (Nat × List Nat)
  | a :: b :: c :: d :: rest => do
    let va ← hexVal a
    let vb ← hexVal b
    let vc ← hexVal c
    let vd ← hexVal d
    pure (((va * 16 + vb) * 16 + vc) * 16 + vd, rest)
  | _ => none

/-- Decode one escape sequence (input starts right after the backslash);
returns the decoded code point and the number of characters consumed.
Follows CPython `py_scanstring`: a high surrogate escape followed by a
low surrogate escape is combined; otherwise a lone surrogate is kept. -/
def parseEscape : List Nat → Option (Nat × Nat)
  | [] => none
  | e :: rest =>
    if e = 34 then some (34, 1)
    else if e = 92 then some (92, 1)
    else if e = 47 then some (47, 1)
    else if e = 98 then some (8, 1)
    else if e = 102 then some (12, 1)
    else if e = 110 then some (10, 1)
    else if e = 114 then some (13, 1)
    else if e = 116 then some (9, 1)
    else if e = 117 then
      match parseHex4 rest with
      | none => none
      | some (n, rest2) =>
        if 0xD800 ≤ n ∧ n < 0xDC00 then
          if rest2.take 2 = [92, 117] then
            match parseHex4 (rest2.drop 2) with
            | none => none
            | some (m, _) =>
              if 0xDC00 ≤ m ∧ m < 0xE000 then
                some (0x10000 + (n - 0xD800) * 0x400 + (m - 0xDC00), 11)
              else some (n, 5)
          else some (n, 5)
        else some (n, 5)
    else none

/-- Scan a JSON string body (the opening quote has been consumed):
returns the decoded string and the input after the closing quote.
Strict mode: a raw control character below 0x20 is rejected. -/
def parseStr : List Nat → Option (PyStr × List Nat)
  | [] => none
  | c :: rest =>
    if c = 34 then some ([], rest)
    else if c = 92 then
      match parseEscape rest with
      | none => none
      | some (ch, n) =>
        match parseStr (rest.drop n) with
        | none => none
        | some (s, rest2) => some (ch :: s, rest2)
    else if c < 32 then none
    else
      match parseStr rest with
      | none => none
      | some (s, rest2) => some (c :: s, rest2)
termination_by l => l.length
decreasing_by
  · simp only [List.length_cons, List.length_drop]
    omega
  · simp only [List.length_cons]
    omega

def isDigit (c : Nat) : Bool := 48 ≤ c && c ≤ 57

/-- Optional fractional part of a JSON number token (regex `(\.\d+)?`);
returns the matched characters and the rest. -/
def parseFrac (s : List Nat) : List Nat × List Nat :=
  match s with
  | 46 :: r =>
    let ds := r.takeWhile isDigit
    if ds.isEmpty then ([], s) else (46 :: ds, r.dropWhile isDigit)
  | _ => ([], s)

/-- Optional exponent part of a JSON number token (regex `([eE][-+]?\d+)?`). -/
def parseExp (s : List Nat) : List Nat × List Nat :=
  match s with
  | e :: r =>
    if e = 101 ∨ e = 69 then
      let sr : List Nat × List Nat :=
        match r with
        | c :: r2 => if c = 43 ∨ c = 45 then ([c], r2) else ([], c :: r2)
        | [] => ([], [])
      let ds := sr.2.takeWhile isDigit
      if ds.isEmpty then ([], e :: r)
      else (e :: (sr.1 ++ ds), sr.2.dropWhile isDigit)
    else ([], e :: r)
  | [] => ([], [])

/-- Match a JSON number token at the head of the input (the json
module's `NUMBER_RE`: `-?(0|[1-9]\d*)(\.\d+)?([eE][-+]?\d+)?`). -/
def parseNumber (s : List Nat) : Option (PyStr × List Nat) :=
  let sign_s1 : List Nat × List Nat :=
    match s with
    | 45 :: rest => ([45], rest)
    | _ => ([], s)
  match sign_s1.2 with
  | c :: r =>
    if isDigit c then
      let ip_s2 : List Nat × List Nat :=
        if c = 48 then ([48], r) else (c :: r.takeWhile isDigit, r.dropWhile isDigit)
      let fp_s3 := parseFrac ip_s2.2
      let ep_s4 := parseExp fp_s3.2
      some (sign_s1.1 ++ ip_s2.1 ++ fp_s3.1 ++ ep_s4.1, ep_s4.2)
    else none
  | [] => none

def litNull : List Nat := pyOfString "null"
def litTrue : List Nat := pyOfString "true"
def litFalse : List Nat := pyOfString "false"
def litNaN : List Nat := pyOfString "NaN"
def litInf : List Nat := pyOfString "Infinity"
def litNegInf : List Nat := pyOfString "-Infinity"

/-- Strip a literal prefix, if present. -/
def stripPfx (p s : List Nat) : Option (List Nat) :=
  if s.take p.length = p then some (s.drop p.length) else none

mutual

/-- Scan one JSON value at the head of the input (whitespace already
skipped), following the json module's `_scan_once` dispatch order.  The
fuel argument only bounds nesting depth; `loads` passes more fuel than
any input can consume, so this equals CPython's recursive scanner. -/
def parseVal : Nat → List Nat → Option (PyVal × List Nat)
  | 0, _ => none
  | fuel + 1, s =>
    match s with
    | [] => none
    | c :: rest =>
      if c = 34 then
        match parseStr rest with
        | some (str, r) => some (.str str, r)
        | none => none
      else if c = 91 then
        let r1 := skipWs rest
        if r1.take 1 = [93] then some (.arr [], r1.drop 1)
        else
          match parseElems fuel r1 with
          | some (vs, r2) => some (.arr vs, r2)
          | none => none
      else if c = 123 then
        let r1 := skipWs rest
        if r1.take 1 = [125] then some (.obj [], r1.drop 1)
        else
          match parseMembers fuel r1 with
          | some (ms, r2) => some (.obj ms, r2)
          | none => none
      else
        match stripPfx litNull s with
        | some r => some (.nullV, r)
        | none =>
          match stripPfx litTrue s with
          | some r => some (.boolV true, r)
          | none =>
            match stripPfx litFalse s with
            | some r => some (.boolV false, r)
            | none =>
              match parseNumber s with
              | some (tok, r) => some (.num tok, r)
              | none =>
                match stripPfx litNaN s with
                | some r => some (.num litNaN, r)
                | none =>
                  match stripPfx litInf s with
                  | some r => some (.num litInf, r)
                  | none =>
                    match stripPfx litNegInf s with
                    | some r => some (.num litNegInf, r)
                    | none => none

/-- Scan the elements of a non-empty JSON array (input positioned at the
first element, whitespace skipped); consumes the closing bracket. -/
def parseElems : Nat → List Nat → Option (List PyVal × List Nat)
  | 0, _ => none
  | fuel + 1, s =>
    match parseVal fuel s with
    | none => none
    | some (v, r) =>
      let t := skipWs r
      if t.take 1 = [44] then
        match parseElems fuel (skipWs (t.drop 1)) with
        | some (vs, r3) => some (v :: vs, r3)
        | none => none
      else if t.take 1 = [93] then some ([v], t.drop 1)
      else none

/-- Scan the members of a non-empty JSON object (input positioned at the
first key, whitespace skipped); consumes the closing brace. -/
def parseMembers : Nat → List Nat → Option (List (PyStr × PyVal) × List Nat)
  | 0, _ => none
  | fuel + 1, s =>
    match s with
    | 34 :: rest =>
      match parseStr rest with
      | none => none
      | some (k, r) =>
        match skipWs r with
        | 58 :: r2 =>
          match parseVal fuel (skipWs r2) with
          | none => none
          | some (v, r3) =>
            match skipWs r3 with
            | 44 :: r4 =>
              match parseMembers fuel (skipWs r4) with
              | some (ms, r5) => some ((k, v) :: ms, r5)
              | none => none
            | 125 :: r4 => some ([(k, v)], r4)
            | _ => none
        | _ => none
    | _ => none

end

/-- Python `json.loads` on a string: scan one value and require that
only whitespace remains.  The fuel bound `length + 2` exceeds the
nesting depth of any input, so the scan never runs out of fuel. -/
def loads (s : PyStr) : Option PyVal :=
  match parseVal (s.length + 2) (skipWs s) with
  | some (v, r) => if (skipWs r).isEmpty then some v else none
  | none => none

/-!
Model of `backend/user_connectivity/embeddings.py`.

Sessions carry the fields read by the subsystem (id, major, location,
preferences.goals, preferences.favorites, createdAt); an absent field is
`none`.  The sentence-transformer encoder is an abstract deterministic
function `PyStr → List ℚ`; per the library's contract, encoding a list
of texts encodes each text (batching changes performance, not values).
-/

structure Preferences where
  goals : Option (List PyStr) := none
  favorites : Option (List PyStr) := none

structure Session where
  id : Option PyStr := none
  major : Option PyStr := none
  location : Option PyStr := none
  preferences : Option Preferences := none
  createdAt : Option PyStr := none

/-- Truthiness of `session.get(field)` for an optional string field:
false when absent or the empty string. -/
def optTruthy (o : Option PyStr) : Bool :=
  match o with
  | some s => decide (s ≠ [])
  | none => false

/-- Faithful embedding of `create_user_text` (embeddings.py lines
26-95): include `Major:`/`Location:` when present and non-empty after
stripping, then `Interests:` from favorites and `Career goals:` from
goals, each comma-joining the stripped non-empty items, joined by
`". "`. -/
def create_user_text (session : Session) : PyStr :=
  let majorParts : List PyStr :=
    match session.major with
    | some m =>
      if m ≠ [] then
        (if pyStrip m ≠ [] then [pyOfString "Major: " ++ pyStrip m] else [])
      else []
    | none => []
  let locationParts : List PyStr :=
    match session.location with
    | some l =>
      if l ≠ [] then
        (if pyStrip l ≠ [] then [pyOfString "Location: " ++ pyStrip l] else [])
      else []
    | none => []
  let prefParts : List PyStr :=
    match session.preferences with
    | some prefs =>
      let favParts : List PyStr :=
        match prefs.favorites with
        | some favorites =>
          if favorites.length > 0 then
            let valid_favorites :=
              (favorites.filter (fun f => decide (f ≠ [] ∧ pyStrip f ≠ []))).map pyStrip
            if valid_favorites ≠ [] then
              [pyOfString "Interests: " ++ joinSep (pyOfString ", ") valid_favorites]
            else []
          else []
        | none => []
      let goalParts : List PyStr :=
        match prefs.goals with
        | some goals =>
          if goals.length > 0 then
            let valid_goals :=
              (goals.filter (fun g => decide (g ≠ [] ∧ pyStrip g ≠ []))).map pyStrip
            if valid_goals ≠ [] then
              [pyOfString "Career goals: " ++ joinSep (pyOfString ", ") valid_goals]
            else []
          else []
        | none => []
      favParts ++ goalParts
    | none => []
  joinSep (pyOfString ". ") (majorParts ++ locationParts ++ prefParts)

/-- Embedding of `get_user_embedding` (embeddings.py lines 98-165):
render the session to text and encode it (`tolist` is the identity in
the model). -/
def get_user_embedding (encode : PyStr → List ℚ) (session : Session) : List ℚ :=
  encode (create_user_text session)

/-- The library's batch encode: `model.encode(texts)` encodes each text
of the list, preserving order (sentence-transformers contract; batching
is internal). -/
def modelEncodeBatch (encode : PyStr → List ℚ) (texts : List PyStr) : List (List ℚ) :=
  texts.map encode

/-- Embedding of `batch_get_embeddings` (embeddings.py lines 190-226):
render every session to text, batch-encode, convert each vector. -/
def batch_get_embeddings (encode : PyStr → List ℚ) (sessions : List Session) :
    List (List ℚ) :=
  modelEncodeBatch encode (sessions.map create_user_text)

/-!
Model of `backend/user_connectivity/vector_db.py`.

The ChromaDB collection is a list of records with unique ids.  The
library operations used by the module are modelled from chromadb's
documented semantics: `get(ids=[x])` is a point lookup, `upsert`
inserts or fully replaces, `delete(ids=[x])` removes the record if
present and is a silent no-op (no exception) otherwise, and
`query(embedding, n)` returns up to `n` records by ascending distance.
Raised Python exceptions become `Except.error`; the module only ever
raises `ValueError`.
-/

/-- A Python exception as raised by this module.  `vector_db.py` raises
only `ValueError` (with different messages for validation and for a
missing user). -/
inductive PyError : Type where
  | valueError (msg : PyStr)
deriving DecidableEq, Repr

/-- The Python exception class of an error, as a caller's
`except SomeClass` clause would discriminate it. -/
def errClass : PyError → PyStr
  | .valueError _ => pyOfString "ValueError"

/-- A stored record: id, embedding, flat string-valued metadata, and the
rendered document text. -/
structure Record where
  id : PyStr
  embedding : List ℚ
  metadata : List (PyStr × PyStr)
  document : PyStr

abbrev Collection := List Record

/-- chromadb `collection.get(ids=[uid])`: point lookup by id. -/
def colGet (col : Collection) (uid : PyStr) : Option Record :=
  col.find? (fun r => decide (r.id = uid))

/-- chromadb `collection.upsert` with a single id: replaces the record
with the same id, or appends a new one. -/
def colUpsert (col : Collection) (r : Record) : Collection :=
  if (colGet col r.id).isSome then
    col.map (fun x => if x.id = r.id then r else x)
  else col ++ [r]

/-- chromadb `collection.delete(ids=[uid])`: removes the record if
present; documented to be a silent no-op (no exception) when the id is
absent. -/
def colDelete (col : Collection) (uid : PyStr) : Collection :=
  col.filter (fun r => decide (r.id ≠ uid))

/-- chromadb `collection.count()`. -/
def count_users (col : Collection) : Nat := col.length

/-- Python `dict.get(k, d)` on a flat string-valued mapping. -/
def rawGet (raw : List (PyStr × PyStr)) (k : PyStr) (d : PyStr) : PyStr :=
  match raw.find? (fun p => decide (p.1 = k)) with
  | some p => p.2
  | none => d

def keyMajor : PyStr := pyOfString "major"
def keyLocation : PyStr := pyOfString "location"
def keyGoalsJson : PyStr := pyOfString "goals_json"
def keyFavoritesJson : PyStr := pyOfString "favorites_json"
def keyCreatedAt : PyStr := pyOfString "created_at"
def keyGoals : PyStr := pyOfString "goals"
def keyFavorites : PyStr := pyOfString "favorites"

/-- Embedding of `UserVectorDB._prepare_metadata` (vector_db.py lines
317-342): flat metadata with `goals`/`favorites` serialized to JSON
strings, and empty-string defaults for the scalar fields. -/
def prepare_metadata (session : Session) : List (PyStr × PyStr) :=
  let preferences :=
    match session.preferences with
    | some p => p
    | none => {}
  let goals := preferences.goals.getD []
  let favorites := preferences.favorites.getD []
  [(keyMajor, session.major.getD []),
   (keyLocation, session.location.getD []),
   (keyGoalsJson, dumps goals),
   (keyFavoritesJson, dumps favorites),
   (keyCreatedAt, session.createdAt.getD [])]

/-- Embedding of `UserVectorDB._parse_metadata` (vector_db.py lines
344-372): deserialize `goals_json`/`favorites_json` (a failed parse
degrades to an empty list), and default the scalar fields to the empty
string. -/
def parse_metadata (raw : List (PyStr × PyStr)) : List (PyStr × PyVal) :=
  let goals :=
    match loads (rawGet raw keyGoalsJson (pyOfString "[]")) with
    | some v => v
    | none => PyVal.arr []
  let favorites :=
    match loads (rawGet raw keyFavoritesJson (pyOfString "[]")) with
    | some v => v
    | none => PyVal.arr []
  [(keyMajor, .str (rawGet raw keyMajor [])),
   (keyLocation, .str (rawGet raw keyLocation [])),
   (keyGoals, goals),
   (keyFavorites, favorites),
   (keyCreatedAt, .str (rawGet raw keyCreatedAt []))]

/-- Embedding of `UserVectorDB.add_user` (vector_db.py lines 78-129):
validate the id, embed the session, and upsert the record.  Returns the
updated collection, or the raised `ValueError` for a missing id. -/
def add_user (col : Collection) (encode : PyStr → List ℚ) (session : Session) :
    Except PyError Collection :=
  if ¬ optTruthy session.id then
    .error (.valueError (pyOfString "Session must have an 'id' field"))
  else
    let embedding := get_user_embedding encode session
    let text := create_user_text session
    let metadata := prepare_metadata session
    .ok (colUpsert col ⟨session.id.getD [], embedding, metadata, text⟩)

/-- The parallel result lists of a chromadb `collection.query` call for
one query embedding (the `[0]`-indexed inner lists of the library's
return value). -/
structure QueryResult where
  ids : List PyStr
  distances : List ℚ
  metadatas : List (List (PyStr × PyStr))

/-- One entry of the list returned by `find_similar_users`. -/
structure SimilarUser where
  user_id : PyStr
  similarity : ℚ
  metadata : Option (List (PyStr × PyVal))
deriving Repr

/-- Embedding of `UserVectorDB.find_similar_users` (vector_db.py lines
131-225).  The store's nearest-neighbor search is the abstract function
`query`; the loop over the parallel result lists is written as a zip
(the library returns parallel lists of one length).  A missing user
raises `ValueError`; otherwise every non-self row is converted to a
`SimilarUser` with `similarity = max 0 (1 - distance/2)` and the list is
truncated to `top_k`. -/
def find_similar_users (col : Collection) (query : List ℚ → Nat → QueryResult)
    (user_id : PyStr) (top_k : Nat) (include_metadata : Bool) :
    Except PyError (List SimilarUser) :=
  match colGet col user_id with
  | none =>
    .error (.valueError (pyOfString "User '" ++ user_id ++
      pyOfString "' not found in database"))
  | some userRec =>
    let results := query userRec.embedding (top_k + 1)
    if results.ids = [] then .ok []
    else
      let rows := results.ids.zip (results.distances.zip results.metadatas)
      let similar_users :=
        (rows.filter (fun row => decide (row.1 ≠ user_id))).map (fun row =>
          { user_id := row.1
            similarity := max 0 (1 - row.2.1 / 2)
            metadata :=
              if include_metadata then some (parse_metadata row.2.2) else none })
      .ok (similar_users.take top_k)

/-- The record view returned by `UserVectorDB.get_user`. -/
structure UserData where
  id : PyStr
  text : PyStr
  metadata : List (PyStr × PyVal)
  embedding : List ℚ

/-- Embedding of `UserVectorDB.get_user` (vector_db.py lines 227-263):
point lookup returning the parsed record, or `none` when absent. -/
def get_user (col : Collection) (user_id : PyStr) : Option UserData :=
  match colGet col user_id with
  | none => none
  | some r => some ⟨r.id, r.document, parse_metadata r.metadata, r.embedding⟩

/-- Embedding of `UserVectorDB.delete_user` (vector_db.py lines
265-286): `try: collection.delete(ids=[user_id]); return True` with
`return False` on an exception.  Since the library's delete never
raises for a missing id, the `True` branch is always taken; the
resulting collection is returned alongside. -/
def delete_user (col : Collection) (user_id : PyStr) : Bool × Collection :=
  (true, colDelete col user_id)

/-!
Theorems.  Helper lemmas come first; each claim's theorem carries its
claim id.
-/

/-- Helper: the successful result of `find_similar_users`, unfolded. -/
theorem find_similar_users_ok (col : Collection) (query : List ℚ → Nat → QueryResult)
    (uid : PyStr) (k : Nat) (inc : Bool) (ur : Record)
    (hcol : colGet col uid = some ur)
    (hne : (query ur.embedding (k + 1)).ids ≠ []) :
    find_similar_users col query uid k inc =
      .ok (((((query ur.embedding (k + 1)).ids.zip
          ((query ur.embedding (k + 1)).distances.zip
            (query ur.embedding (k + 1)).metadatas)).filter
              (fun row => decide (row.1 ≠ uid))).map (fun row =>
          { user_id := row.1
            similarity := max 0 (1 - row.2.1 / 2)
            metadata :=
              if inc then some (parse_metadata row.2.2) else none })).take k) := by
  unfold find_similar_users
  rw [hcol]
  simp [hne]

theorem C2_self_exclusion (col : Collection) (query : List ℚ → Nat → QueryResult)
    (uid : PyStr) (k : Nat) (inc : Bool) (out : List SimilarUser)
    (hok : find_similar_users col query uid k inc = .ok out) :
    ∀ m ∈ out, m.user_id ≠ uid := by
  intro m hm
  cases hcol : colGet col uid with
  | none =>
    unfold find_similar_users at hok
    rw [hcol] at hok
    exact absurd hok (by simp)
  | some ur =>
    by_cases hne : (query ur.embedding (k + 1)).ids = []
    · unfold find_similar_users at hok
      rw [hcol] at hok
      simp only [hne, if_true, Except.ok.injEq] at hok
      subst hok
      simp at hm
    · rw [find_similar_users_ok col query uid k inc ur hcol hne, Except.ok.injEq] at hok
      subst hok
      have hm' := List.take_subset _ _ hm
      obtain ⟨row, hrow, hbuild⟩ := List.mem_map.mp hm'
      have := (List.mem_filter.mp hrow).2
      rw [← hbuild]
      simpa using this

theorem C1_similarity_formula_and_bounds (col : Collection) (query : List ℚ → Nat → QueryResult)
    (uid : PyStr) (k : Nat) (inc : Bool) (out : List SimilarUser) (ur : Record)
    (hcol : colGet col uid = some ur)
    (hok : find_similar_users col query uid k inc = .ok out)
    (hd : ∀ d ∈ (query ur.embedding (k + 1)).distances, 0 ≤ d) :
    ∀ m ∈ out,
      (∃ i, ∃ hi : i < (query ur.embedding (k + 1)).ids.length,
        ∃ hj : i < (query ur.embedding (k + 1)).distances.length,
        m.user_id = (query ur.embedding (k + 1)).ids[i] ∧
        m.similarity = max 0 (1 - (query ur.embedding (k + 1)).distances[i] / 2)) ∧
      0 ≤ m.similarity ∧ m.similarity ≤ 1 := by
  intro m hm
  by_cases hne : (query ur.embedding (k + 1)).ids = []
  · unfold find_similar_users at hok
    rw [hcol] at hok
    simp only [hne, if_true, Except.ok.injEq] at hok
    subst hok
    simp at hm
  · rw [find_similar_users_ok col query uid k inc ur hcol hne, Except.ok.injEq] at hok
    subst hok
    have hm' := List.take_subset _ _ hm
    obtain ⟨row, hrow, hbuild⟩ := List.mem_map.mp hm'
    have hrowmem := (List.mem_filter.mp hrow).1
    obtain ⟨i, hilt, hget⟩ := List.getElem_of_mem hrowmem
    rw [List.length_zip, List.length_zip] at hilt
    have hi : i < (query ur.embedding (k + 1)).ids.length := lt_of_lt_of_le hilt (Nat.min_le_left _ _)
    have hj : i < (query ur.embedding (k + 1)).distances.length := by
      have := lt_of_lt_of_le hilt (Nat.min_le_right _ _)
      exact lt_of_lt_of_le this (Nat.min_le_left _ _)
    have hj2 : i < (query ur.embedding (k + 1)).metadatas.length := by
      have := lt_of_lt_of_le hilt (Nat.min_le_right _ _)
      exact lt_of_lt_of_le this (Nat.min_le_right _ _)
    rw [List.getElem_zip, List.getElem_zip] at hget
    have husr : m.user_id = (query ur.embedding (k + 1)).ids[i] := by
      rw [← hbuild, ← hget]
    have hsim : m.similarity = max 0 (1 - (query ur.embedding (k + 1)).distances[i] / 2) := by
      rw [← hbuild, ← hget]
    refine ⟨⟨i, hi, hj, husr, hsim⟩, ?_, ?_⟩
    · rw [hsim]; exact le_max_left _ _
    · rw [hsim]
      have hd0 : (0:ℚ) ≤ (query ur.embedding (k + 1)).distances[i] :=
        hd _ (List.getElem_mem hj)
      apply max_le (by norm_num)
      have : (0:ℚ) ≤ (query ur.embedding (k + 1)).distances[i] / 2 := by positivity
      linarith

/-- Helper: in a duplicate-free list, a member is counted exactly once. -/
theorem countP_eq_one_of_nodup_mem {l : List PyStr} {a : PyStr} (hn : l.Nodup) (hm : a ∈ l) :
    l.countP (fun x => decide (x = a)) = 1 := by
  induction l with
  | nil => simp at hm
  | cons b t ih =>
    rw [List.countP_cons]
    have hbt : b ∉ t := (List.nodup_cons.mp hn).1
    rcases List.mem_cons.mp hm with h | h
    · subst h
      have hz : t.countP (fun x => decide (x = a)) = 0 := by
        rw [List.countP_eq_zero]
        intro x hx
        simp only [decide_eq_true_eq]
        rintro rfl
        exact hbt hx
      simp [hz]
    · have hba : ¬ (b = a) := by
        rintro rfl
        exact hbt h
      rw [ih (List.nodup_cons.mp hn).2 h]
      simp [hba]

theorem C3_topk_bound (col : Collection) (query : List ℚ → Nat → QueryResult)
    (uid : PyStr) (k : Nat) (inc : Bool) (out : List SimilarUser) (ur : Record)
    (hcol : colGet col uid = some ur)
    (hok : find_similar_users col query uid k inc = .ok out) :
    out.length ≤ k ∧
    ((query ur.embedding (k + 1)).ids.Nodup →
      uid ∈ (query ur.embedding (k + 1)).ids →
      (query ur.embedding (k + 1)).ids.length = min (k + 1) (count_users col) →
      (query ur.embedding (k + 1)).distances.length = (query ur.embedding (k + 1)).ids.length →
      (query ur.embedding (k + 1)).metadatas.length = (query ur.embedding (k + 1)).ids.length →
      out.length = min k (count_users col - 1)) := by
  by_cases hne : (query ur.embedding (k + 1)).ids = []
  · unfold find_similar_users at hok
    rw [hcol] at hok
    simp only [hne, if_true, Except.ok.injEq] at hok
    subst hok
    constructor
    · simp
    · intro _ hmem _ _ _
      rw [hne] at hmem
      simp at hmem
  · rw [find_similar_users_ok col query uid k inc ur hcol hne, Except.ok.injEq] at hok
    subst hok
    constructor
    · exact List.length_take_le _ _
    · intro hnodup hmem hlen hld hlm
      rw [List.length_take, List.length_map, ← List.countP_eq_length_filter]
      have hzlen : ((query ur.embedding (k + 1)).distances.zip
          (query ur.embedding (k + 1)).metadatas).length =
          (query ur.embedding (k + 1)).ids.length := by
        rw [List.length_zip, hld, hlm]; omega
      have hfst : (((query ur.embedding (k + 1)).ids.zip
          ((query ur.embedding (k + 1)).distances.zip
            (query ur.embedding (k + 1)).metadatas))).map Prod.fst =
          (query ur.embedding (k + 1)).ids := by
        apply List.map_fst_zip
        omega
      have hcount : ((query ur.embedding (k + 1)).ids.zip
          ((query ur.embedding (k + 1)).distances.zip
            (query ur.embedding (k + 1)).metadatas)).countP
            (fun row => decide (row.1 ≠ uid)) =
          (query ur.embedding (k + 1)).ids.countP (fun x => decide (x ≠ uid)) := by
        rw [show (fun (row : PyStr × (ℚ × List (PyStr × PyStr))) => decide (row.1 ≠ uid)) =
          ((fun x => decide (x ≠ uid)) ∘ Prod.fst) from rfl, ← List.countP_map, hfst]
      have hcnt_eq : (query ur.embedding (k + 1)).ids.countP (fun x => decide (x = uid)) = 1 :=
        countP_eq_one_of_nodup_mem hnodup hmem
      have hsplit : (query ur.embedding (k + 1)).ids.length =
          (query ur.embedding (k + 1)).ids.countP (fun x => decide (x = uid)) +
          (query ur.embedding (k + 1)).ids.countP (fun x => decide (x ≠ uid)) := by
        rw [List.length_eq_countP_add_countP (p := fun x => decide (x = uid))]
        congr 1
        apply List.countP_congr
        intro x _
        simp
      have hne_cnt : (query ur.embedding (k + 1)).ids.countP (fun x => decide (x ≠ uid)) =
          (query ur.embedding (k + 1)).ids.length - 1 := by
        omega
      have hpos : 1 ≤ (query ur.embedding (k + 1)).ids.length :=
        List.length_pos.mpr hne
      rw [hcount, hne_cnt, hlen]
      rw [hlen] at hpos
      omega

theorem C4_both_value_errors_distinct_messages (col col2 : Collection) (query : List ℚ → Nat → QueryResult)
    (uid : PyStr) (k : Nat) (inc : Bool) (encode : PyStr → List ℚ) (session : Session)
    (h1 : colGet col uid = none) (h2 : optTruthy session.id = false) :
    find_similar_users col query uid k inc =
      .error (.valueError (pyOfString "User '" ++ uid ++ pyOfString "' not found in database")) ∧
    add_user col2 encode session =
      .error (.valueError (pyOfString "Session must have an 'id' field")) ∧
    errClass (.valueError (pyOfString "User '" ++ uid ++ pyOfString "' not found in database")) =
      errClass (.valueError (pyOfString "Session must have an 'id' field")) ∧
    pyOfString "User '" ++ uid ++ pyOfString "' not found in database" ≠
      pyOfString "Session must have an 'id' field" := by
  refine ⟨?_, ?_, rfl, ?_⟩
  · unfold find_similar_users
    rw [h1]
  · unfold add_user
    rw [h2]
    simp
  · intro hcontra
    have : (pyOfString "User '" ++ uid ++ pyOfString "' not found in database").head? =
        (pyOfString "Session must have an 'id' field").head? := by rw [hcontra]
    simp [pyOfString] at this

theorem C4_errors_not_structurally_distinguishable :
    find_similar_users [] (fun _ _ => ⟨[], [], []⟩) (pyOfString "ghost") 5 true =
      .error (.valueError (pyOfString "User 'ghost' not found in database")) ∧
    add_user [] (fun _ => []) {} =
      .error (.valueError (pyOfString "Session must have an 'id' field")) ∧
    errClass (.valueError (pyOfString "User 'ghost' not found in database")) =
      errClass (.valueError (pyOfString "Session must have an 'id' field")) := by
  refine ⟨?_, by rfl, rfl⟩
  unfold find_similar_users
  rw [show colGet [] (pyOfString "ghost") = none from rfl]
  rfl

theorem C5_delete_always_true :
    (∀ (col : Collection) (uid : PyStr), (delete_user col uid).1 = true) ∧
    colGet [] (pyOfString "ghost") = none ∧
    (delete_user [] (pyOfString "ghost")).1 = true := by
  exact ⟨fun _ _ => rfl, rfl, rfl⟩

theorem C6_empty_store_raises :
    find_similar_users [] (fun _ _ => ⟨[], [], []⟩) (pyOfString "u1") 5 true =
      .error (.valueError (pyOfString "User 'u1' not found in database")) ∧
    ∀ l, find_similar_users [] (fun _ _ => ⟨[], [], []⟩) (pyOfString "u1") 5 true ≠ .ok l := by
  have h : find_similar_users [] (fun _ _ => ⟨[], [], []⟩) (pyOfString "u1") 5 true =
      .error (.valueError (pyOfString "User 'u1' not found in database")) := by
    unfold find_similar_users
    rw [show colGet [] (pyOfString "u1") = none from rfl]
    rfl
  refine ⟨h, fun l hcontra => ?_⟩
  rw [h] at hcontra
  exact absurd hcontra (by simp)

theorem C6_amended_behavior (query : List ℚ → Nat → QueryResult) (uid : PyStr) (k : Nat) (inc : Bool) :
    find_similar_users [] query uid k inc =
      .error (.valueError (pyOfString "User '" ++ uid ++ pyOfString "' not found in database")) ∧
    (∀ (col : Collection) (ur : Record), colGet col uid = some ur →
      (query ur.embedding (k + 1)).ids = [] →
      find_similar_users col query uid k inc = .ok []) := by
  constructor
  · unfold find_similar_users
    rw [show colGet [] uid = none from rfl]
  · intro col ur hcol hids
    unfold find_similar_users
    rw [hcol]
    simp [hids]

/-- Modelled from the spec's words (section 3 "Rendered Text", section
4.1): an optional scalar field is stripped of surrounding whitespace and
included as `label ++ stripped` when the result is non-empty. -/
def specFieldPart (label : PyStr) (v : Option PyStr) : List PyStr :=
  match v with
  | some m =>
    let m' := pyStrip m
    if m' = [] then [] else [label ++ m']
  | none => []

/-- Modelled from the spec's words (section 3, section 4.1): a list
field is included as `label ++ comma-joined items`, each item stripped,
items that become empty after stripping excluded; the field is omitted
when nothing remains. -/
def specListPart (label : PyStr) (items : Option (List PyStr)) : List PyStr :=
  match items with
  | some l =>
    let l' := (l.map pyStrip).filter (fun x => decide (x ≠ []))
    if l' = [] then [] else [label ++ joinSep (pyOfString ", ") l']
  | none => []

/-- Modelled from the spec's words: the Rendered Text of a profile, the
present-and-non-empty fields in the fixed order Major, Location,
Interests (favorites), Career goals (goals), joined by `". "`. -/
def renderSpec (session : Session) : PyStr :=
  joinSep (pyOfString ". ")
    (specFieldPart (pyOfString "Major: ") session.major ++
     specFieldPart (pyOfString "Location: ") session.location ++
     specListPart (pyOfString "Interests: ") (session.preferences.bind Preferences.favorites) ++
     specListPart (pyOfString "Career goals: ") (session.preferences.bind Preferences.goals))

/-- Helper: filtering before stripping (as the code does) equals
stripping before filtering (as the spec words it), because the empty
string strips to itself. -/
theorem valid_items_eq (l : List PyStr) :
    (l.filter (fun f => decide (f ≠ [] ∧ pyStrip f ≠ []))).map pyStrip =
    (l.map pyStrip).filter (fun x => decide (x ≠ [])) := by
  rw [List.filter_map]
  congr 1
  apply List.filter_congr
  intro x _
  simp only [Function.comp_apply, decide_eq_decide]
  constructor
  · intro h
    exact h.2
  · intro h
    refine ⟨fun hx => h ?_, h⟩
    rw [hx]
    rfl

/-- The code's scalar-field block in `create_user_text` (truthiness
check, strip, non-empty check), as a function of the label and field. -/
def codeFieldPart (label : PyStr) (v : Option PyStr) : List PyStr :=
  match v with
  | some m =>
    if m ≠ [] then
      (if pyStrip m ≠ [] then [label ++ pyStrip m] else [])
    else []
  | none => []

/-- The code's list-field block in `create_user_text` (non-empty list
check, per-item truthiness-and-strip filter, join), as a function of the
label and field. -/
def codeListPart (label : PyStr) (items : Option (List PyStr)) : List PyStr :=
  match items with
  | some l =>
    if l.length > 0 then
      (let valid := (l.filter (fun f => decide (f ≠ [] ∧ pyStrip f ≠ []))).map pyStrip
       if valid ≠ [] then [label ++ joinSep (pyOfString ", ") valid] else [])
    else []
  | none => []

/-- Helper: `create_user_text` is the join of its four blocks. -/
theorem create_user_text_eq_parts (session : Session) :
    create_user_text session =
      joinSep (pyOfString ". ")
        (codeFieldPart (pyOfString "Major: ") session.major ++
         codeFieldPart (pyOfString "Location: ") session.location ++
         (match session.preferences with
          | some prefs =>
            codeListPart (pyOfString "Interests: ") prefs.favorites ++
            codeListPart (pyOfString "Career goals: ") prefs.goals
          | none => [])) := by
  cases session with
  | mk id major location preferences createdAt =>
    cases major <;> cases location <;> cases preferences <;> rfl

/-- Helper: the code's scalar-field block computes what the spec words
describe. -/
theorem codeFieldPart_eq_spec (label : PyStr) (v : Option PyStr) :
    codeFieldPart label v = specFieldPart label v := by
  cases v with
  | none => rfl
  | some m =>
    by_cases hm : m = []
    · subst hm
      simp [codeFieldPart, specFieldPart, pyStrip]
    · by_cases hs : pyStrip m = []
      · simp [codeFieldPart, specFieldPart, hm, hs]
      · simp [codeFieldPart, specFieldPart, hm, hs]

/-- Helper: the code's list-field block computes what the spec words
describe. -/
theorem codeListPart_eq_spec (label : PyStr) (items : Option (List PyStr)) :
    codeListPart label items = specListPart label items := by
  cases items with
  | none => rfl
  | some l =>
    cases l with
    | nil => simp [codeListPart, specListPart]
    | cons a t =>
      simp only [codeListPart, specListPart, valid_items_eq]
      split_ifs <;> simp_all

theorem C8_render_equals_spec (session : Session) :
    create_user_text session = renderSpec session ∧
    (specFieldPart (pyOfString "Major: ") session.major = [] →
     specFieldPart (pyOfString "Location: ") session.location = [] →
     specListPart (pyOfString "Interests: ") (session.preferences.bind Preferences.favorites) = [] →
     specListPart (pyOfString "Career goals: ") (session.preferences.bind Preferences.goals) = [] →
     create_user_text session = []) := by
  have hmain : create_user_text session = renderSpec session := by
    rw [create_user_text_eq_parts, renderSpec]
    rw [codeFieldPart_eq_spec, codeFieldPart_eq_spec]
    cases hp : session.preferences with
    | none => simp [specListPart]
    | some prefs => simp [codeListPart_eq_spec, Option.some_bind]
  refine ⟨hmain, fun h1 h2 h3 h4 => ?_⟩
  rw [hmain]
  unfold renderSpec
  rw [h1, h2, h3, h4]
  rfl

theorem C9_batch_single_equivalence (encode : PyStr → List ℚ) (sessions : List Session) (i : Nat)
    (hi : i < (batch_get_embeddings encode sessions).length) :
    (batch_get_embeddings encode sessions).length = sessions.length ∧
    ∃ hj : i < sessions.length,
      (batch_get_embeddings encode sessions)[i] = get_user_embedding encode sessions[i] := by
  have hlen : (batch_get_embeddings encode sessions).length = sessions.length := by
    simp [batch_get_embeddings, modelEncodeBatch]
  have hj : i < sessions.length := hlen ▸ hi
  refine ⟨hlen, hj, ?_⟩
  simp [batch_get_embeddings, modelEncodeBatch, get_user_embedding]

/-- Helper: reading back an encoded hexadecimal digit. -/
theorem hexVal_hexDig {d : Nat} (h : d < 16) : hexVal (hexDig d) = some d := by
  interval_cases d <;> rfl

/-- Helper: reading back four encoded hexadecimal digits. -/
theorem parseHex4_hex4 {n : Nat} (h : n < 0x10000) (rest : List Nat) :
    parseHex4 (hex4 n ++ rest) = some (n, rest) := by
  simp only [hex4, List.cons_append, List.nil_append, parseHex4]
  rw [hexVal_hexDig (by omega), hexVal_hexDig (by omega), hexVal_hexDig (by omega),
    hexVal_hexDig (by omega)]
  simp only [Option.bind_eq_bind, Option.some_bind]
  have harith : ((n / 4096 % 16 * 16 + n / 256 % 16) * 16 + n / 16 % 16) * 16 + n % 16 = n := by
    omega
  rw [harith]
  rfl

/-- Helper: unfolding of `parseEscape` at a `\uXXXX` escape. -/
theorem parseEscape_u (rest : List Nat) :
    parseEscape (117 :: rest) =
      (match parseHex4 rest with
       | none => none
       | some (n, rest2) =>
         if 0xD800 ≤ n ∧ n < 0xDC00 then
           if rest2.take 2 = [92, 117] then
             match parseHex4 (rest2.drop 2) with
             | none => none
             | some (m, _) =>
               if 0xDC00 ≤ m ∧ m < 0xE000 then
                 some (0x10000 + (n - 0xD800) * 0x400 + (m - 0xDC00), 11)
               else some (n, 5)
           else some (n, 5)
         else some (n, 5)) := rfl

/-- Helper: decoding a `\uXXXX` escape that is not a high surrogate. -/
theorem parseEscape_hex {n : Nat} (h : n < 0x10000) (hhs : ¬ (0xD800 ≤ n ∧ n < 0xDC00))
    (rest : List Nat) :
    parseEscape (117 :: hex4 n ++ rest) = some (n, 5) := by
  rw [List.cons_append, parseEscape_u, parseHex4_hex4 h]
  simp only []
  rw [if_neg hhs]

/-- Helper: decoding an encoded surrogate pair back to one astral code
point. -/
theorem parseEscape_astral {c : Nat} (h1 : 0x10000 ≤ c) (h2 : c < 0x110000) (rest : List Nat) :
    parseEscape (117 :: hex4 (0xD800 + (c - 0x10000) / 0x400) ++
      (92 :: 117 :: hex4 (0xDC00 + (c - 0x10000) % 0x400) ++ rest)) = some (c, 11) := by
  have hhi : 0xD800 + (c - 0x10000) / 0x400 < 0x10000 := by omega
  have hlo : 0xDC00 + (c - 0x10000) % 0x400 < 0x10000 := by
    have := Nat.mod_lt (c - 0x10000) (y := 0x400) (by omega)
    omega
  rw [List.cons_append, parseEscape_u, parseHex4_hex4 hhi]
  simp only []
  rw [if_pos (show (55296:Nat) ≤ 55296 + (c - 65536) / 1024 ∧
    55296 + (c - 65536) / 1024 < 56320 by constructor <;> omega)]
  rw [if_pos (show (((92:Nat) :: 117 :: hex4 (56320 + (c - 65536) % 1024)) ++ rest).take 2 =
    [92, 117] from rfl)]
  rw [show (((92:Nat) :: 117 :: hex4 (56320 + (c - 65536) % 1024)) ++ rest).drop 2 =
    hex4 (56320 + (c - 65536) % 1024) ++ rest from rfl]
  rw [parseHex4_hex4 hlo]
  simp only []
  rw [if_pos (show (56320:Nat) ≤ 56320 + (c - 65536) % 1024 ∧
    56320 + (c - 65536) % 1024 < 57344 from ⟨by omega, by
      have := Nat.mod_lt (c - 0x10000) (y := 0x400) (by omega)
      omega⟩)]
  have hc : 65536 + (55296 + (c - 65536) / 1024 - 55296) * 1024 +
      (56320 + (c - 65536) % 1024 - 56320) = c := by omega
  rw [hc]

/-- Helper: scanning a one-character escape from a string body. -/
theorem parseStr_esc1 {e c : Nat} (h : ∀ r : List Nat, parseEscape (e :: r) = some (c, 1))
    (rest : List Nat) :
    parseStr (92 :: e :: rest) = (parseStr rest).map (fun p => (c :: p.1, p.2)) := by
  rw [parseStr]
  rw [if_neg (by decide : ¬ (92:Nat) = 34), if_pos rfl]
  rw [h rest]
  simp only []
  rw [show List.drop 1 (e :: rest) = rest from rfl]
  cases parseStr rest with
  | none => rfl
  | some p => rfl

/-- Helper: scanning a literal (unescaped) character from a string body. -/
theorem parseStr_lit {c : Nat} (h1 : ¬ c = 34) (h2 : ¬ c = 92) (h3 : ¬ c < 32)
    (rest : List Nat) :
    parseStr (c :: rest) = (parseStr rest).map (fun p => (c :: p.1, p.2)) := by
  rw [parseStr]
  rw [if_neg h1, if_neg h2, if_neg h3]
  cases parseStr rest with
  | none => rfl
  | some p => rfl

/-- Helper: scanning a `\uXXXX`-escaped BMP character from a string body. -/
theorem parseStr_uEsc {c : Nat} (h : c < 0x10000) (hhs : ¬ (0xD800 ≤ c ∧ c < 0xDC00))
    (rest : List Nat) :
    parseStr (92 :: ((117 :: hex4 c) ++ rest)) =
      (parseStr rest).map (fun p => (c :: p.1, p.2)) := by
  rw [parseStr]
  rw [if_neg (by decide : ¬ (92:Nat) = 34), if_pos rfl]
  rw [show ((117 :: hex4 c) ++ rest) = 117 :: hex4 c ++ rest from rfl]
  rw [parseEscape_hex h hhs]
  simp only []
  rw [show List.drop 5 (117 :: hex4 c ++ rest) = rest from rfl]
  cases parseStr rest with
  | none => rfl
  | some p => rfl

/-- Helper: scanning an escaped surrogate pair from a string body. -/
theorem parseStr_astral {c : Nat} (h1 : 0x10000 ≤ c) (h2 : c < 0x110000) (rest : List Nat) :
    parseStr ((uEsc (0xD800 + (c - 0x10000) / 0x400) ++
        uEsc (0xDC00 + (c - 0x10000) % 0x400)) ++ rest) =
      (parseStr rest).map (fun p => (c :: p.1, p.2)) := by
  have hshape : (uEsc (0xD800 + (c - 0x10000) / 0x400) ++
      uEsc (0xDC00 + (c - 0x10000) % 0x400)) ++ rest =
      92 :: (117 :: hex4 (0xD800 + (c - 0x10000) / 0x400) ++
        (92 :: 117 :: hex4 (0xDC00 + (c - 0x10000) % 0x400) ++ rest)) := by
    simp [uEsc, List.append_assoc]
  rw [hshape, parseStr]
  rw [if_neg (by decide : ¬ (92:Nat) = 34), if_pos rfl]
  rw [parseEscape_astral h1 h2]
  simp only []
  rw [show List.drop 11 (117 :: hex4 (0xD800 + (c - 0x10000) / 0x400) ++
    (92 :: 117 :: hex4 (0xDC00 + (c - 0x10000) % 0x400) ++ rest)) = rest from rfl]
  cases parseStr rest with
  | none => rfl
  | some p => rfl

/-- Helper: scanning one dumped character from a JSON string body. -/
theorem parseStr_escChar {c : Nat} (hv : c < 0xD800 ∨ (0xE000 ≤ c ∧ c < 0x110000))
    (rest : List Nat) :
    parseStr (escChar c ++ rest) = (parseStr rest).map (fun p => (c :: p.1, p.2)) := by
  by_cases h34 : c = 34
  · subst h34
    rw [show escChar 34 ++ rest = 92 :: 34 :: rest from rfl]
    apply parseStr_esc1
    intro r
    rfl
  by_cases h92 : c = 92
  · subst h92
    rw [show escChar 92 ++ rest = 92 :: 92 :: rest from rfl]
    apply parseStr_esc1
    intro r
    rfl
  by_cases h8 : c = 8
  · subst h8
    rw [show escChar 8 ++ rest = 92 :: 98 :: rest from rfl]
    apply parseStr_esc1
    intro r
    rfl
  by_cases h9 : c = 9
  · subst h9
    rw [show escChar 9 ++ rest = 92 :: 116 :: rest from rfl]
    apply parseStr_esc1
    intro r
    rfl
  by_cases h10 : c = 10
  · subst h10
    rw [show escChar 10 ++ rest = 92 :: 110 :: rest from rfl]
    apply parseStr_esc1
    intro r
    rfl
  by_cases h12 : c = 12
  · subst h12
    rw [show escChar 12 ++ rest = 92 :: 102 :: rest from rfl]
    apply parseStr_esc1
    intro r
    rfl
  by_cases h13 : c = 13
  · subst h13
    rw [show escChar 13 ++ rest = 92 :: 114 :: rest from rfl]
    apply parseStr_esc1
    intro r
    rfl
  by_cases hpr : 32 ≤ c ∧ c ≤ 126
  · have hesc : escChar c = [c] := by
      unfold escChar
      rw [if_neg h34, if_neg h92, if_neg h8, if_neg h9, if_neg h10, if_neg h12, if_neg h13,
        if_pos hpr]
    rw [hesc]
    exact parseStr_lit h34 h92 (by omega) rest
  by_cases hbmp : c < 0x10000
  · have hesc : escChar c = uEsc c := by
      unfold escChar
      rw [if_neg h34, if_neg h92, if_neg h8, if_neg h9, if_neg h10, if_neg h12, if_neg h13,
        if_neg hpr, if_pos hbmp]
    rw [hesc]
    exact parseStr_uEsc hbmp (by omega) rest
  · have hesc : escChar c = uEsc (0xD800 + (c - 0x10000) / 0x400) ++
        uEsc (0xDC00 + (c - 0x10000) % 0x400) := by
      unfold escChar
      rw [if_neg h34, if_neg h92, if_neg h8, if_neg h9, if_neg h10, if_neg h12, if_neg h13,
        if_neg hpr, if_neg hbmp]
    rw [hesc]
    exact parseStr_astral (by omega) (by omega) rest

/-- Helper: scanning a whole dumped string body recovers the string. -/
theorem parseStr_dumped {s : PyStr} (hv : validStr s = true) (rest : List Nat) :
    parseStr ((s.map escChar).flatten ++ (34 :: rest)) = some (s, rest) := by
  induction s with
  | nil =>
    rw [List.map_nil, List.flatten_nil, List.nil_append, parseStr, if_pos rfl]
  | cons c t ih =>
    have h' := hv
    simp only [validStr, List.all_cons, Bool.and_eq_true, decide_eq_true_eq] at h'
    have hvc : c < 0xD800 ∨ (0xE000 ≤ c ∧ c < 0x110000) := h'.1
    have hvt : validStr t = true := h'.2
    rw [List.map_cons, List.flatten_cons, List.append_assoc, parseStr_escChar hvc]
    rw [ih hvt]
    rfl

/-- Helper: `parseVal` on a dumped string (any positive fuel). -/
theorem parseVal_dumpStr {s : PyStr} (hv : validStr s = true) (fuel : Nat) (rest : List Nat) :
    parseVal (fuel + 1) (dumpStr s ++ rest) = some (.str s, rest) := by
  have hshape : dumpStr s ++ rest = 34 :: ((s.map escChar).flatten ++ (34 :: rest)) := by
    simp [dumpStr]
  rw [hshape]
  rw [parseVal]
  rw [if_pos rfl]
  rw [parseStr_dumped hv]

/-- Helper: `skipWs` does not move past a dumped string (which starts
with a quote). -/
theorem skipWs_dumpStr (s : PyStr) (rest : List Nat) :
    skipWs (dumpStr s ++ rest) = dumpStr s ++ rest := rfl

/-- Helper: scanning the elements of a dumped non-empty string array. -/
theorem parseElems_dumped {l : List PyStr} (hne : l ≠ [])
    (hv : ∀ s ∈ l, validStr s = true) (f : Nat) (hf : 1 ≤ f) (rest : List Nat) :
    parseElems (l.length + f) (joinSep [44, 32] (l.map dumpStr) ++ (93 :: rest)) =
      some (l.map PyVal.str, rest) := by
  induction l generalizing f with
  | nil => exact absurd rfl hne
  | cons x xs ih =>
    have hvx : validStr x = true := hv x (List.mem_cons_self x xs)
    cases xs with
    | nil =>
      have hlen : ([x] : List PyStr).length + f = f + 1 := by
        simp only [List.length_singleton]
        omega
      have hshape : joinSep [44, 32] (([x] : List PyStr).map dumpStr) ++ (93 :: rest) =
          dumpStr x ++ (93 :: rest) := by
        simp [joinSep]
      rw [hlen, hshape, parseElems]
      have hf1 : f = (f - 1) + 1 := by omega
      rw [hf1, parseVal_dumpStr hvx]
      simp only []
      rw [show skipWs (93 :: rest) = 93 :: rest from rfl]
      rw [show ((93:Nat) :: rest).take 1 = [93] from rfl]
      rw [if_neg (by decide : ¬ ([93] : List Nat) = [44]), if_pos rfl]
      rfl
    | cons y ys =>
      have hlen : (x :: y :: ys : List PyStr).length + f = ((y :: ys).length + f) + 1 := by
        simp only [List.length_cons]
        omega
      have hshape : joinSep [44, 32] ((x :: y :: ys : List PyStr).map dumpStr) ++ (93 :: rest) =
          dumpStr x ++ (44 :: 32 ::
            (joinSep [44, 32] ((y :: ys : List PyStr).map dumpStr) ++ (93 :: rest))) := by
        simp [joinSep, List.append_assoc]
      rw [hlen, hshape, parseElems]
      have hf1 : (y :: ys : List PyStr).length + f = ((y :: ys).length + f - 1) + 1 := by
        simp only [List.length_cons]
        omega
      rw [hf1, parseVal_dumpStr hvx, ← hf1]
      simp only []
      rw [show skipWs (44 :: 32 ::
        (joinSep [44, 32] ((y :: ys : List PyStr).map dumpStr) ++ (93 :: rest))) =
        44 :: 32 :: (joinSep [44, 32] ((y :: ys : List PyStr).map dumpStr) ++ (93 :: rest))
        from rfl]
      rw [show ((44:Nat) :: 32 ::
        (joinSep [44, 32] ((y :: ys : List PyStr).map dumpStr) ++ (93 :: rest))).take 1 = [44]
        from rfl]
      rw [if_pos rfl]
      rw [show ((44:Nat) :: 32 ::
        (joinSep [44, 32] ((y :: ys : List PyStr).map dumpStr) ++ (93 :: rest))).drop 1 =
        32 :: (joinSep [44, 32] ((y :: ys : List PyStr).map dumpStr) ++ (93 :: rest)) from rfl]
      rw [show skipWs (32 :: (joinSep [44, 32] ((y :: ys : List PyStr).map dumpStr) ++
        (93 :: rest))) =
        joinSep [44, 32] ((y :: ys : List PyStr).map dumpStr) ++ (93 :: rest) from rfl]
      rw [ih (by simp) (fun s hs => hv s (List.mem_cons_of_mem x hs)) f hf]
      rfl

/-- Helper: join of at least two parts, one step. -/
theorem joinSep_cons2 (sep p q : PyStr) (rest : List PyStr) :
    joinSep sep (p :: q :: rest) = p ++ sep ++ joinSep sep (q :: rest) := by
  simp [joinSep, List.append_assoc]

/-- Helper: a dumped string has at least its two quotes. -/
theorem two_le_length_dumpStr (s : PyStr) : 2 ≤ (dumpStr s).length := by
  simp only [dumpStr, List.length_cons, List.length_append, List.length_singleton]
  omega

/-- Helper: the joined dumped items are at least as long as the item
count (each item contributes two quotes and separators). -/
theorem length_le_joinSep_dumps (l : List PyStr) :
    l.length ≤ (joinSep [44, 32] (l.map dumpStr)).length + 1 := by
  induction l with
  | nil => simp [joinSep]
  | cons x xs ih =>
    cases xs with
    | nil =>
      have := two_le_length_dumpStr x
      simp [joinSep]
    | cons y ys =>
      simp only [List.map_cons] at ih ⊢
      rw [joinSep_cons2]
      simp only [List.length_cons, List.length_append] at *
      omega

/-- Helper: a dumped list is at least as long as the list. -/
theorem length_le_length_dumps (l : List PyStr) : l.length ≤ (dumps l).length := by
  have := length_le_joinSep_dumps l
  simp only [dumps, List.length_cons, List.length_append]
  simp at this ⊢
  omega

/-- Helper: `parseVal` on a dumped string list with enough fuel. -/
theorem parseVal_dumps {l : List PyStr} (hv : ∀ s ∈ l, validStr s = true)
    {f : Nat} (hfuel : l.length + 2 ≤ f) (rest : List Nat) :
    parseVal f (dumps l ++ rest) = some (.arr (l.map PyVal.str), rest) := by
  have hshape : dumps l ++ rest = 91 :: (joinSep [44, 32] (l.map dumpStr) ++ (93 :: rest)) := by
    simp [dumps]
  have h1 : f = (f - 1) + 1 := by omega
  rw [hshape, h1, parseVal]
  rw [if_neg (by decide : ¬ (91:Nat) = 34), if_pos rfl]
  cases l with
  | nil =>
    simp only [List.map_nil, joinSep, List.nil_append]
    rw [show skipWs (93 :: rest) = 93 :: rest from rfl]
    rw [show ((93:Nat) :: rest).take 1 = [93] from rfl]
    rw [if_pos rfl]
    rfl
  | cons x xs =>
    have hws : skipWs (joinSep [44, 32] ((x :: xs : List PyStr).map dumpStr) ++ (93 :: rest)) =
        joinSep [44, 32] ((x :: xs : List PyStr).map dumpStr) ++ (93 :: rest) := rfl
    rw [hws]
    simp only []
    rw [show (joinSep [44, 32] ((x :: xs : List PyStr).map dumpStr) ++ (93 :: rest)).take 1 =
      [34] from rfl]
    rw [if_neg (by decide : ¬ ([34] : List Nat) = [93])]
    have hfe : f - 1 = (x :: xs : List PyStr).length + (f - 1 - (x :: xs).length) := by
      simp only [List.length_cons] at *
      omega
    rw [hfe, parseElems_dumped (by simp) hv (f - 1 - (x :: xs).length)
      (by simp only [List.length_cons] at *; omega) rest]

/-- Helper: `json.loads` recovers a dumped string list exactly. -/
theorem loads_dumps {l : List PyStr} (hv : ∀ s ∈ l, validStr s = true) :
    loads (dumps l) = some (.arr (l.map PyVal.str)) := by
  unfold loads
  have hws : skipWs (dumps l) = dumps l := rfl
  rw [hws]
  have happ : (dumps l : List Nat) = dumps l ++ [] := by simp
  rw [show parseVal ((dumps l).length + 2) (dumps l) =
    parseVal ((dumps l).length + 2) (dumps l ++ []) by rw [← happ]]
  rw [parseVal_dumps hv (by have := length_le_length_dumps l; omega) []]
  rfl

/-- C7: serializing the goals and favorites lists into metadata on write
and parsing them back on read recovers the lists exactly, for every list
of well-formed strings (commas, quotes and other delimiter-like
characters included); the scalar fields pass through unchanged. -/
theorem C7_metadata_roundtrip (session : Session) (goals favorites : List PyStr)
    (hp : session.preferences = some ⟨some goals, some favorites⟩)
    (hvg : ∀ s ∈ goals, validStr s = true) (hvf : ∀ s ∈ favorites, validStr s = true) :
    parse_metadata (prepare_metadata session) =
      [(keyMajor, .str (session.major.getD [])),
       (keyLocation, .str (session.location.getD [])),
       (keyGoals, .arr (goals.map PyVal.str)),
       (keyFavorites, .arr (favorites.map PyVal.str)),
       (keyCreatedAt, .str (session.createdAt.getD []))] := by
  unfold prepare_metadata
  rw [hp]
  simp only [Option.getD_some]
  unfold parse_metadata
  rw [show rawGet [(keyMajor, session.major.getD []), (keyLocation, session.location.getD []),
    (keyGoalsJson, dumps goals), (keyFavoritesJson, dumps favorites),
    (keyCreatedAt, session.createdAt.getD [])] keyGoalsJson (pyOfString "[]") =
    dumps goals from rfl]
  rw [show rawGet [(keyMajor, session.major.getD []), (keyLocation, session.location.getD []),
    (keyGoalsJson, dumps goals), (keyFavoritesJson, dumps favorites),
    (keyCreatedAt, session.createdAt.getD [])] keyFavoritesJson (pyOfString "[]") =
    dumps favorites from rfl]
  rw [show rawGet [(keyMajor, session.major.getD []), (keyLocation, session.location.getD []),
    (keyGoalsJson, dumps goals), (keyFavoritesJson, dumps favorites),
    (keyCreatedAt, session.createdAt.getD [])] keyMajor [] = session.major.getD [] from rfl]
  rw [show rawGet [(keyMajor, session.major.getD []), (keyLocation, session.location.getD []),
    (keyGoalsJson, dumps goals), (keyFavoritesJson, dumps favorites),
    (keyCreatedAt, session.createdAt.getD [])] keyLocation [] =
    session.location.getD [] from rfl]
  rw [show rawGet [(keyMajor, session.major.getD []), (keyLocation, session.location.getD []),
    (keyGoalsJson, dumps goals), (keyFavoritesJson, dumps favorites),
    (keyCreatedAt, session.createdAt.getD [])] keyCreatedAt [] =
    session.createdAt.getD [] from rfl]
  rw [loads_dumps hvg, loads_dumps hvf]

/-- C10 (amended): every metadata dict built by `_parse_metadata` has
exactly the keys major, location, goals, favorites, created_at (never
name or email); major, location and created_at default to the empty
string when absent; goals and favorites are lists whenever the stored
JSON field is missing, unparseable, or parses to a JSON array — but a
stored field that parses to a non-array JSON value is returned as that
value.  The metadata returned by `get_user` and `find_similar_users` is
always such a dict. -/
theorem C10_metadata_shape :
    (∀ raw : List (PyStr × PyStr),
      (parse_metadata raw).map Prod.fst =
        [keyMajor, keyLocation, keyGoals, keyFavorites, keyCreatedAt] ∧
      pyOfString "name" ∉ (parse_metadata raw).map Prod.fst ∧
      pyOfString "email" ∉ (parse_metadata raw).map Prod.fst ∧
      (raw.find? (fun p => decide (p.1 = keyMajor)) = none →
        (parse_metadata raw).lookup keyMajor = some (.str [])) ∧
      (raw.find? (fun p => decide (p.1 = keyLocation)) = none →
        (parse_metadata raw).lookup keyLocation = some (.str [])) ∧
      (raw.find? (fun p => decide (p.1 = keyCreatedAt)) = none →
        (parse_metadata raw).lookup keyCreatedAt = some (.str [])) ∧
      (loads (rawGet raw keyGoalsJson (pyOfString "[]")) = none →
        (parse_metadata raw).lookup keyGoals = some (.arr [])) ∧
      (∀ items, loads (rawGet raw keyGoalsJson (pyOfString "[]")) = some (.arr items) →
        (parse_metadata raw).lookup keyGoals = some (.arr items)) ∧
      (loads (rawGet raw keyFavoritesJson (pyOfString "[]")) = none →
        (parse_metadata raw).lookup keyFavorites = some (.arr [])) ∧
      (∀ items, loads (rawGet raw keyFavoritesJson (pyOfString "[]")) = some (.arr items) →
        (parse_metadata raw).lookup keyFavorites = some (.arr items))) ∧
    (∀ (col : Collection) (uid : PyStr) (u : UserData), get_user col uid = some u →
      ∃ raw, u.metadata = parse_metadata raw) ∧
    (∀ (col : Collection) (query : List ℚ → Nat → QueryResult) (uid : PyStr) (k : Nat)
      (out : List SimilarUser) (m : SimilarUser),
      find_similar_users col query uid k true = .ok out → m ∈ out →
      ∃ raw, m.metadata = some (parse_metadata raw)) := by
  refine ⟨?_, ?_, ?_⟩
  · intro raw
    refine ⟨rfl, by simp [parse_metadata, keyMajor, keyLocation, keyGoals, keyFavorites,
      keyCreatedAt, pyOfString], by simp [parse_metadata, keyMajor, keyLocation, keyGoals,
      keyFavorites, keyCreatedAt, pyOfString], ?_, ?_, ?_, ?_, ?_, ?_, ?_⟩
    · intro h
      unfold parse_metadata rawGet
      rw [h]
      rfl
    · intro h
      unfold parse_metadata rawGet
      rw [h]
      rfl
    · intro h
      unfold parse_metadata rawGet
      rw [h]
      rfl
    · intro h
      unfold parse_metadata
      rw [h]
      rfl
    · intro items h
      unfold parse_metadata
      rw [h]
      rfl
    · intro h
      unfold parse_metadata
      rw [h]
      rfl
    · intro items h
      unfold parse_metadata
      rw [h]
      rfl
  · intro col uid u h
    unfold get_user at h
    cases hcol : colGet col uid with
    | none => rw [hcol] at h; exact absurd h (by simp)
    | some r =>
      rw [hcol] at h
      simp only [Option.some.injEq] at h
      subst h
      exact ⟨r.metadata, rfl⟩
  · intro col query uid k out m hok hm
    cases hcol : colGet col uid with
    | none =>
      unfold find_similar_users at hok
      rw [hcol] at hok
      exact absurd hok (by simp)
    | some ur =>
      by_cases hne : (query ur.embedding (k + 1)).ids = []
      · unfold find_similar_users at hok
        rw [hcol] at hok
        simp only [hne, if_true, Except.ok.injEq] at hok
        subst hok
        simp at hm
      · rw [find_similar_users_ok col query uid k true ur hcol hne, Except.ok.injEq] at hok
        subst hok
        have hm' := List.take_subset _ _ hm
        obtain ⟨row, hrow, hbuild⟩ := List.mem_map.mp hm'
        refine ⟨row.2.2, ?_⟩
        rw [← hbuild]
        simp

/-- C10 counterexample: a stored `goals_json` of `"5"` parses
successfully to the JSON number 5, so the returned goals value is not a
list; `get_user` hands this dict to the caller unchanged. -/
theorem C10_counterexample_nonlist_goals :
    parse_metadata [(keyGoalsJson, pyOfString "5")] =
      [(keyMajor, .str []), (keyLocation, .str []), (keyGoals, .num (pyOfString "5")),
       (keyFavorites, .arr []), (keyCreatedAt, .str [])] ∧
    get_user [⟨pyOfString "u1", [1], [(keyGoalsJson, pyOfString "5")], []⟩] (pyOfString "u1") =
      some ⟨pyOfString "u1", [], parse_metadata [(keyGoalsJson, pyOfString "5")], [1]⟩ ∧
    (∀ items : List PyVal, PyVal.num (pyOfString "5") ≠ PyVal.arr items) := by
  refine ⟨rfl, rfl, fun items h => by cases h⟩

/-- Concrete store and query results used by the witnesses. -/
def wU1 : PyStr := pyOfString "u1"

def wU2 : PyStr := pyOfString "u2"

def wCol : Collection := [⟨wU1, [1], [], []⟩, ⟨wU2, [0], [], []⟩]

def wQuery : List ℚ → Nat → QueryResult := fun _ _ => ⟨[wU1, wU2], [0, 1], [[], []]⟩

def wQueryEmpty : List ℚ → Nat → QueryResult := fun _ _ => ⟨[], [], []⟩

theorem C1_witness :
    (∃ i, ∃ hi : i < (wQuery ([1] : List ℚ) 6).ids.length,
      ∃ hj : i < (wQuery ([1] : List ℚ) 6).distances.length,
      (⟨wU2, max 0 (1 - (1:ℚ)/2), none⟩ : SimilarUser).user_id =
        (wQuery ([1] : List ℚ) 6).ids[i] ∧
      (⟨wU2, max 0 (1 - (1:ℚ)/2), none⟩ : SimilarUser).similarity =
        max 0 (1 - (wQuery ([1] : List ℚ) 6).distances[i] / 2)) ∧
    (0:ℚ) ≤ (⟨wU2, max 0 (1 - (1:ℚ)/2), none⟩ : SimilarUser).similarity ∧
    (⟨wU2, max 0 (1 - (1:ℚ)/2), none⟩ : SimilarUser).similarity ≤ 1 := by
  have hd : ∀ d ∈ (wQuery ([1] : List ℚ) 6).distances, (0:ℚ) ≤ d := by
    intro d hmem
    simp only [wQuery, List.mem_cons, List.not_mem_nil, or_false] at hmem
    rcases hmem with h | h <;> rw [h] <;> norm_num
  exact C1_similarity_formula_and_bounds wCol wQuery wU1 5 false
    [⟨wU2, max 0 (1 - (1:ℚ)/2), none⟩] ⟨wU1, [1], [], []⟩ rfl rfl hd
    ⟨wU2, max 0 (1 - (1:ℚ)/2), none⟩ (by simp)

theorem C2_witness :
    (⟨wU2, max 0 (1 - (1:ℚ)/2), none⟩ : SimilarUser).user_id ≠ wU1 :=
  C2_self_exclusion wCol wQuery wU1 5 false [⟨wU2, max 0 (1 - (1:ℚ)/2), none⟩] rfl
    ⟨wU2, max 0 (1 - (1:ℚ)/2), none⟩ (by simp)

theorem C3_witness :
    ([⟨wU2, max 0 (1 - (1:ℚ)/2), none⟩] : List SimilarUser).length ≤ 5 ∧
    ([⟨wU2, max 0 (1 - (1:ℚ)/2), none⟩] : List SimilarUser).length =
      min 5 (count_users wCol - 1) := by
  have h := C3_topk_bound wCol wQuery wU1 5 false
    [⟨wU2, max 0 (1 - (1:ℚ)/2), none⟩] ⟨wU1, [1], [], []⟩ rfl rfl
  exact ⟨h.1, h.2 (by decide) (by decide) (by decide) (by decide) (by decide)⟩

theorem C4_witness :
    find_similar_users [] wQuery (pyOfString "ghost") 5 true =
      .error (.valueError (pyOfString "User '" ++ pyOfString "ghost" ++
        pyOfString "' not found in database")) ∧
    add_user [] (fun _ => []) {} =
      .error (.valueError (pyOfString "Session must have an 'id' field")) ∧
    errClass (.valueError (pyOfString "User '" ++ pyOfString "ghost" ++
        pyOfString "' not found in database")) =
      errClass (.valueError (pyOfString "Session must have an 'id' field")) ∧
    pyOfString "User '" ++ pyOfString "ghost" ++ pyOfString "' not found in database" ≠
      pyOfString "Session must have an 'id' field" :=
  C4_both_value_errors_distinct_messages [] [] wQuery (pyOfString "ghost") 5 true
    (fun _ => []) {} rfl rfl

theorem C6_witness :
    find_similar_users [] wQueryEmpty wU1 5 true =
      .error (.valueError (pyOfString "User '" ++ wU1 ++
        pyOfString "' not found in database")) ∧
    find_similar_users wCol wQueryEmpty wU1 5 true = .ok [] := by
  have h := C6_amended_behavior wQueryEmpty wU1 5 true
  exact ⟨h.1, h.2 wCol ⟨wU1, [1], [], []⟩ rfl rfl⟩

theorem C7_witness :
    parse_metadata (prepare_metadata ⟨some wU1, none, none,
      some ⟨some [pyOfString "a,b", pyOfString "he said \"hi\""], some []⟩, none⟩) =
      [(keyMajor, .str []),
       (keyLocation, .str []),
       (keyGoals, .arr ([pyOfString "a,b", pyOfString "he said \"hi\""].map PyVal.str)),
       (keyFavorites, .arr (([] : List PyStr).map PyVal.str)),
       (keyCreatedAt, .str [])] :=
  C7_metadata_roundtrip ⟨some wU1, none, none,
      some ⟨some [pyOfString "a,b", pyOfString "he said \"hi\""], some []⟩, none⟩
    [pyOfString "a,b", pyOfString "he said \"hi\""] [] rfl (by decide) (by decide)

theorem C8_witness :
    create_user_text ⟨some wU1, none, none, none, none⟩ =
      renderSpec ⟨some wU1, none, none, none, none⟩ ∧
    create_user_text ⟨some wU1, none, none, none, none⟩ = [] := by
  have h := C8_render_equals_spec ⟨some wU1, none, none, none, none⟩
  exact ⟨h.1, h.2 rfl rfl rfl rfl⟩

theorem C9_witness :
    (batch_get_embeddings (fun s => [(s.length : ℚ)])
      [⟨some wU1, none, none, none, none⟩]).length =
      ([⟨some wU1, none, none, none, none⟩] : List Session).length ∧
    ∃ hj : 0 < ([⟨some wU1, none, none, none, none⟩] : List Session).length,
      (batch_get_embeddings (fun s => [(s.length : ℚ)])
        [⟨some wU1, none, none, none, none⟩]).get
          ⟨0, by simp [batch_get_embeddings, modelEncodeBatch]⟩ =
      get_user_embedding (fun s => [(s.length : ℚ)])
        (([⟨some wU1, none, none, none, none⟩] : List Session).get ⟨0, by simp⟩) := by
  have h := C9_batch_single_equivalence (fun s => [(s.length : ℚ)])
    [⟨some wU1, none, none, none, none⟩] 0
    (by simp [batch_get_embeddings, modelEncodeBatch])
  exact h

theorem C10_witness :
    (parse_metadata ([] : List (PyStr × PyStr))).map Prod.fst =
      [keyMajor, keyLocation, keyGoals, keyFavorites, keyCreatedAt] ∧
    (parse_metadata ([] : List (PyStr × PyStr))).lookup keyMajor = some (.str []) ∧
    (parse_metadata ([] : List (PyStr × PyStr))).lookup keyGoals = some (.arr []) := by
  obtain ⟨h1, h2, h3⟩ := C10_metadata_shape
  obtain ⟨ha, hb, hc, hd, he, hf, hg, hh, hi', hj⟩ := h1 []
  exact ⟨ha, hd rfl, hh [] rfl⟩
